import Mathlib

/-!
Shallow embedding of the core of the `claude-code-notify` application
(src-tauri/src: `state.rs`, `notification_state.rs`, `lib.rs`, `client.rs`),
together with theorems checking the natural-language specification against it.

Rust strings (`&str`, `String`) are modelled as Lean `String`; Rust's
byte-oriented operations (`str::len`, byte-range slicing `&s[..n]`) are
modelled over the underlying character list with explicit UTF-8 byte
widths.  A byte slice at an index that is not a character boundary panics
in Rust; fallible/panicking computations are modelled with `Option`
(`none` = panic).  The external `serde_json` / `std::str::from_utf8`
collaborators are abstracted as function parameters.  `f64` metric fields
are modelled as `ℚ` (the claims under check concern which records enter a
sum or a denominator, not IEEE rounding), and the `AtomicU32` unread
counter as `Nat` with explicit wrap-around modulo `2 ^ 32`.
-/

/-! ## Byte-level string model -/

/-- UTF-8 byte length of a character list; models Rust `str::len()`. -/
def byteLen (s : List Char) : Nat := (s.map Char.utf8Size).sum

/-- Byte length of a string, models Rust `str::len()` (bytes, not chars). -/
def strLen (s : String) : Nat := byteLen s.data

/-- Models the Rust byte slice `&s[..n]`: returns the characters making up
the first `n` bytes when `n` is a character boundary of `s`, and `none`
(a Rust panic) when `n` falls inside a multi-byte character or past the
end of the string. -/
def takeBytes : List Char → Nat → Option (List Char)
  | _, 0 => some []
  | [], _ + 1 => none
  | c :: cs, n + 1 =>
    if c.utf8Size ≤ n + 1 then (takeBytes cs (n + 1 - c.utf8Size)).map (c :: ·)
    else none

/-- If the byte slice succeeds, the produced prefix has exactly `n` bytes. -/
theorem takeBytes_byteLen : ∀ (s : List Char) (n : Nat) (t : List Char),
    takeBytes s n = some t → byteLen t = n := by
  intro s
  induction s with
  | nil =>
    intro n t h
    cases n with
    | zero => simp [takeBytes] at h; subst h; simp [byteLen]
    | succ m => simp [takeBytes] at h
  | cons c cs ih =>
    intro n t h
    cases n with
    | zero => simp [takeBytes] at h; subst h; simp [byteLen]
    | succ m =>
      simp only [takeBytes] at h
      by_cases hc : c.utf8Size ≤ m + 1
      · rw [if_pos hc] at h
        cases ht : takeBytes cs (m + 1 - c.utf8Size) with
        | none => rw [ht] at h; simp at h
        | some t' =>
          rw [ht] at h
          simp at h
          have := ih (m + 1 - c.utf8Size) t' ht
          rw [← h]
          simp only [byteLen, List.map_cons, List.sum_cons]
          have hsz : 1 ≤ c.utf8Size := Char.utf8Size_pos c
          simp only [byteLen] at this
          omega
      · rw [if_neg hc] at h; simp at h

/-! ## Path model (Unix semantics of `std::path::Path`) -/

/-- Split a character list on `'/'` (the path separator). -/
def splitSlash : List Char → List (List Char)
  | [] => [[]]
  | c :: cs =>
    if c = '/' then [] :: splitSlash cs
    else
      match splitSlash cs with
      | [] => [[c]]
      | p :: ps => (c :: p) :: ps

/-- Models `Path::new(cwd).file_name().and_then(|n| n.to_str())`: the last
normal path component (empty and `"."` components are skipped, a trailing
`".."` or an empty component list yields `none`); `to_str` on a component
of a valid-UTF-8 path always succeeds. -/
def fileName (cwd : String) : Option String :=
  let comps := (splitSlash cwd.data).filter (fun comp => !comp.isEmpty && comp != ['.'])
  match comps.getLast? with
  | none => none
  | some comp => if comp = ['.', '.'] then none else some (String.mk comp)

namespace SessionNameManager

/-- `MAX_PROJECT_NAME_LENGTH` from `state.rs`. -/
def MAX_PROJECT_NAME_LENGTH : Nat := 30

/-- The `.unwrap_or(cwd)` step of `SessionNameManager::extract_project_name`:
final path component of `cwd`, or the whole `cwd` string when there is none. -/
def rawProjectName (cwd : String) : String := (fileName cwd).getD cwd

/-- Models `SessionNameManager::extract_project_name` (state.rs:300-312):
take the final path component (or the whole string), and when its byte
length exceeds 30, keep the first `30 - 3` bytes and append `"..."`.
The byte slice `&project_name[..27]` panics (`none`) when byte 27 is not a
character boundary. -/
def extract_project_name (cwd : String) : Option String :=
  let project_name := rawProjectName cwd
  if strLen project_name > MAX_PROJECT_NAME_LENGTH then
    (takeBytes project_name.data (MAX_PROJECT_NAME_LENGTH - 3)).map
      (fun pre => String.mk pre ++ "...")
  else some project_name

end SessionNameManager

/-! ## SessionNameManager state -/

/-- Association-list lookup, models `HashMap<String, String>::get`. -/
def lookupName (sid : String) : List (String × String) → Option String
  | [] => none
  | (k, v) :: rest => if k = sid then some v else lookupName sid rest

/-- Association-list lookup, models `HashMap<String, Vec<String>>::get`. -/
def lookupBucket (proj : String) : List (String × List String) → Option (List String)
  | [] => none
  | (k, v) :: rest => if k = proj then some v else lookupBucket proj rest

/-- Insert-or-replace, models `HashMap::entry(..).or_default()` followed by
writing back the updated vector. -/
def setBucket (proj : String) (v : List String) :
    List (String × List String) → List (String × List String)
  | [] => [(proj, v)]
  | (k, w) :: rest => if k = proj then (proj, v) :: rest else (k, w) :: setBucket proj v rest

/-- Remove the (unique) entry of a key, models `HashMap::remove`. -/
def removeName (sid : String) : List (String × String) → List (String × String)
  | [] => []
  | (k, v) :: rest => if k = sid then rest else (k, v) :: removeName sid rest

/-- The two maps held by `SessionNameManager` (state.rs:229-235):
`names : session_id → display name` and
`project_sessions : project name → session ids in arrival order`. -/
structure NameState where
  names : List (String × String)
  project_sessions : List (String × List String)
deriving DecidableEq

/-- A fresh `SessionNameManager::new()`. -/
def NameState.empty : NameState := ⟨[], []⟩

namespace SessionNameManager

/-- Models `SessionNameManager::get_or_create_name` (state.rs:256-297).
Returns the display name together with the updated state; `none` is the
panic propagated from `extract_project_name`.  The inner second lookup
models the double-check performed after taking the write lock. -/
def get_or_create_name (st : NameState) (session_id cwd : String) :
    Option (String × NameState) :=
  match lookupName session_id st.names with
  | some name => some (name, st)
  | none =>
    (extract_project_name cwd).bind fun project_name =>
      match lookupName session_id st.names with
      | some name => some (name, st)
      | none =>
        let sessions := (lookupBucket project_name st.project_sessions).getD []
        let sessions := sessions ++ [session_id]
        let seq_num := sessions.length
        let display_name := project_name ++ " (" ++ toString seq_num ++ ")"
        some (display_name,
          { names := st.names ++ [(session_id, display_name)],
            project_sessions := setBucket project_name sessions st.project_sessions })

/-- The `for sessions in project_sessions.values_mut()` loop of
`remove_session`: remove the id from the first bucket containing it. -/
def removeFromBuckets (sid : String) :
    List (String × List String) → List (String × List String)
  | [] => []
  | (k, ss) :: rest =>
    if ss.contains sid then (k, ss.erase sid) :: rest
    else (k, ss) :: removeFromBuckets sid rest

/-- Models `SessionNameManager::remove_session` (state.rs:316-334). -/
def remove_session (st : NameState) (session_id : String) : NameState :=
  match lookupName session_id st.names with
  | none => st
  | some _ =>
    { names := removeName session_id st.names,
      project_sessions :=
        (removeFromBuckets session_id st.project_sessions).filter
          (fun p => !p.2.isEmpty) }

end SessionNameManager

/-- A call against the `SessionNameManager` API. -/
inductive NameOp
  | create (session_id cwd : String)
  | remove (session_id : String)
deriving DecidableEq

/-- Apply one API call; `none` propagates a panic from name creation. -/
def applyNameOp (st : NameState) : NameOp → Option NameState
  | .create sid cwd => (SessionNameManager.get_or_create_name st sid cwd).map (·.2)
  | .remove sid => some (SessionNameManager.remove_session st sid)

/-- Run a sequence of API calls. -/
def runNameOps (st : NameState) : List NameOp → Option NameState
  | [] => some st
  | op :: rest => (applyNameOp st op).bind fun st' => runNameOps st' rest

/-- Run a sequence of `get_or_create_name` calls, collecting the names
they return. -/
def runNames (st : NameState) : List (String × String) → Option (List String)
  | [] => some []
  | (sid, cwd) :: rest =>
    (SessionNameManager.get_or_create_name st sid cwd).bind fun p =>
      (runNames p.2 rest).map (fun ns => p.1 :: ns)

/-! ## Session registry (`SessionManager`, state.rs) -/

/-- `SESSION_TIMEOUT_SECS` from state.rs. -/
def SESSION_TIMEOUT_SECS : Nat := 300

/-- Models `SessionStatus` (state.rs:28-44); `f64` fields are modelled as
`ℚ`, `i64` fields as `ℤ`. -/
structure SessionStatus where
  state : Option String
  context_percent : Option ℚ
  cost_usd : Option ℚ
  lines_added : Option ℤ
  lines_removed : Option ℤ
deriving DecidableEq

/-- Models `StatusPayload` (state.rs:18-24). -/
structure StatusPayload where
  session_id : String
  cwd : String
  status : SessionStatus
  timestamp : Option String
deriving DecidableEq

/-- Models `SessionData` (state.rs:48-53); the monotonic `Instant` clock is
modelled as a `Nat` number of elapsed seconds. -/
structure SessionData where
  session_id : String
  cwd : String
  status : SessionStatus
  last_updated : Nat
deriving DecidableEq

/-- Models `SessionData::new` at clock value `now`. -/
def SessionData.new (now : Nat) (payload : StatusPayload) : SessionData :=
  { session_id := payload.session_id, cwd := payload.cwd,
    status := payload.status, last_updated := now }

/-- Models `SessionData::is_expired`: `last_updated.elapsed() > timeout`. -/
def SessionData.is_expired (now timeout : Nat) (sd : SessionData) : Bool :=
  now - sd.last_updated > timeout

/-- The `HashMap<String, SessionData>` of `SessionManager`, as an
association list keyed by session id. -/
def SessionMap := List (String × SessionData)

/-- Models `SessionManager::update_session` (state.rs:108-119): replace the
record of an existing session id in place, else insert a new record. -/
def update_session (now : Nat) (payload : StatusPayload) :
    List (String × SessionData) → List (String × SessionData)
  | [] => [(payload.session_id, SessionData.new now payload)]
  | (k, sd) :: rest =>
    if k = payload.session_id then
      (k, { sd with cwd := payload.cwd, status := payload.status,
                    last_updated := now }) :: rest
    else (k, sd) :: update_session now payload rest

/-- Models `SessionManager::cleanup_expired` (state.rs:122-139): retain the
non-expired records, returning the removed count as well. -/
def cleanup_expired (now : Nat) (sessions : List (String × SessionData)) :
    List (String × SessionData) × Nat :=
  let kept := sessions.filter (fun p => !(p.2.is_expired now SESSION_TIMEOUT_SECS))
  (kept, sessions.length - kept.length)

/-- Models `AggregatedMetrics` (state.rs:78-84). -/
structure AggregatedMetrics where
  active_sessions : Nat
  total_cost_usd : ℚ
  average_context_percent : ℚ
  total_lines_added : ℤ
  total_lines_removed : ℤ
deriving DecidableEq

/-- The accumulator of the `for session in sessions.values()` loop of
`get_metrics` (state.rs:150-170). -/
structure MetricsAcc where
  total_cost : ℚ
  total_context : ℚ
  context_count : Nat
  total_added : ℤ
  total_removed : ℤ
deriving DecidableEq

/-- The `get_metrics` accumulation loop: each record contributes a field to
its running total only when that field is present. -/
def metricsLoop : List SessionData → MetricsAcc
  | [] => ⟨0, 0, 0, 0, 0⟩
  | sd :: rest =>
    let acc := metricsLoop rest
    { total_cost :=
        match sd.status.cost_usd with
        | some cost => acc.total_cost + cost
        | none => acc.total_cost,
      total_context :=
        match sd.status.context_percent with
        | some context => acc.total_context + context
        | none => acc.total_context,
      context_count :=
        match sd.status.context_percent with
        | some _ => acc.context_count + 1
        | none => acc.context_count,
      total_added :=
        match sd.status.lines_added with
        | some added => acc.total_added + added
        | none => acc.total_added,
      total_removed :=
        match sd.status.lines_removed with
        | some removed => acc.total_removed + removed
        | none => acc.total_removed }

/-- Models `SessionManager::get_metrics` (state.rs:142-185). -/
def get_metrics (sessions : List (String × SessionData)) : AggregatedMetrics :=
  let active_sessions := sessions.length
  if active_sessions = 0 then ⟨0, 0, 0, 0, 0⟩
  else
    let acc := metricsLoop (sessions.map (·.2))
    let avg_context : ℚ :=
      if acc.context_count > 0 then acc.total_context / (acc.context_count : ℚ)
      else 0
    ⟨active_sessions, acc.total_cost, avg_context, acc.total_added, acc.total_removed⟩

/-! ## Unread counter (`NotificationState`, notification_state.rs) -/

/-- Models `NotificationState::increment` (notification_state.rs:25-29):
`fetch_add(1)` on an `AtomicU32` wraps modulo `2 ^ 32`; the function
returns the post-increment value together with the new counter state. -/
def increment (unread_count : Nat) : Nat × Nat :=
  let new_count := (unread_count + 1) % 2 ^ 32
  (new_count, new_count)

/-- Models `NotificationState::reset`. -/
def notificationReset : Nat := 0

/-! ## Notification fan-out (`NotificationManager::notify`, lib.rs) -/

/-- Models `NotificationSettings` (settings.rs:11-25); the `f32` volume is
modelled as `ℚ`. -/
structure NotificationSettings where
  sound_enabled : Bool
  taskbar_flash_enabled : Bool
  taskbar_badge_enabled : Bool
  toast_notification_enabled : Bool
  tray_flash_enabled : Bool
  sound_volume : ℚ
deriving DecidableEq

/-- `NotificationSettings::default()`. -/
def NotificationSettings.default : NotificationSettings :=
  ⟨true, true, true, true, true, 8 / 10⟩

/-- The external channel effects requested by one `notify` call. -/
structure NotifyEffects where
  toast : Bool
  sound : Bool
  count : Nat
  taskbar_flash : Bool
  badge : Option Nat
  tray_flash_started : Bool
deriving DecidableEq

/-- Models `NotificationManager::notify` (lib.rs:153-202) as a pure
function of the settings snapshot, the window visibility and the current
unread count: which channels fire, the captured post-increment count, and
the new unread count. -/
def notify (settings : NotificationSettings) (window_visible : Bool)
    (unread : Nat) : NotifyEffects × Nat :=
  let (count, unread') := increment unread
  ({ toast := settings.toast_notification_enabled,
     sound := settings.sound_enabled,
     count := count,
     taskbar_flash := window_visible && settings.taskbar_flash_enabled,
     badge := if window_visible && settings.taskbar_badge_enabled
              then some count else none,
     tray_flash_started := !window_visible && settings.tray_flash_enabled },
   unread')

/-! ## JSON values (`serde_json::Value`) -/

/-- Models `serde_json::Value`; numbers are modelled as `ℚ`. -/
inductive Json where
  | null
  | bool (b : Bool)
  | num (q : ℚ)
  | str (s : String)
  | arr (elems : List Json)
  | obj (fields : List (String × Json))

/-- Object-field lookup used by `Value::get(key)`. -/
def jsonField (key : String) : List (String × Json) → Option Json
  | [] => none
  | (k, v) :: rest => if k = key then some v else jsonField key rest

/-- Models `Value::get(key)` on objects (`None` on any other variant). -/
def Json.get (j : Json) (key : String) : Option Json :=
  match j with
  | .obj fields => jsonField key fields
  | _ => none

/-- Models `Value::as_str`. -/
def Json.as_str : Json → Option String
  | .str s => some s
  | _ => none

/-- Models `Value::as_array`. -/
def Json.as_array : Json → Option (List Json)
  | .arr elems => some elems
  | _ => none

/-! ## Typed event payloads (lib.rs) -/

/-- Models `StopEventPayload` (lib.rs:31-43). -/
structure StopEventPayload where
  event : String
  cwd : String
  session_id : Option String
  session_name : Option String
  timestamp : Option String

/-- Models `PermissionRequestContent` (lib.rs:62-68). -/
structure PermissionRequestContent where
  tool_name : Option String
  tool_input : Option Json
  raw : Option String

/-- Models `PermissionRequestPayload` (lib.rs:46-59). -/
structure PermissionRequestPayload where
  event : String
  cwd : String
  session_id : Option String
  session_name : Option String
  content : PermissionRequestContent
  timestamp : Option String

/-- Models `NotificationContent` (lib.rs:87-98). -/
structure NotificationContent where
  notification_type : Option String
  title : Option String
  message : Option String
  question : Option String
  raw : Option String

/-- Models `NotificationEventPayload` (lib.rs:71-84). -/
structure NotificationEventPayload where
  event : String
  cwd : String
  session_id : Option String
  session_name : Option String
  content : NotificationContent
  timestamp : Option String

/-! ## External decoding collaborators -/

/-- The external decoding collaborators, abstracted as functions:
`payload_str` is `std::str::from_utf8` (client.rs:46-49) and the rest are
the `serde_json::from_str` instances used by `handle_mqtt_message`.
Payload bytes are modelled as `List Nat`. -/
structure Serde where
  payload_str : List Nat → Option String
  decodeStop : String → Option StopEventPayload
  decodePermission : String → Option PermissionRequestPayload
  decodeNotification : String → Option NotificationEventPayload
  decodeStatus : String → Option StatusPayload
  parseValue : String → Option Json

/-! ## Topic constants (client.rs `topics`) -/

/-- `topics::TASK_COMPLETE`. -/
def TASK_COMPLETE : String := "claude-code/task/complete"

/-- `topics::ERROR`. -/
def ERROR : String := "claude-code/error"

/-- `topics::STATUS`. -/
def STATUS : String := "claude-code/status"

/-- `topics::EVENTS_STOP`. -/
def EVENTS_STOP : String := "claude-code/events/stop"

/-- `topics::EVENTS_PERMISSION_REQUEST`. -/
def EVENTS_PERMISSION_REQUEST : String := "claude-code/events/permission-request"

/-- `topics::EVENTS_NOTIFICATION`. -/
def EVENTS_NOTIFICATION : String := "claude-code/events/notification"

/-- The per-session status topic head, models `topics::STATUS_PREFIX`
(`"claude-code/status/"`). -/
def STATUS_TOPIC_HEAD : String := "claude-code/status/"

/-- Models Rust `str::starts_with` over the character lists. -/
def strStartsWith (s p : String) : Bool := p.data.isPrefixOf s.data

/-! ## Event routing (`handle_mqtt_message` and helpers, lib.rs) -/

/-- A notification request passed to `NotificationManager::notify`. -/
structure Notification where
  title : String
  body : String
deriving DecidableEq

/-- The shared mutable state reachable from `handle_mqtt_message`: the two
name maps, the session registry and the unread counter. -/
structure AppModel where
  name_state : NameState
  sessions : List (String × SessionData)
  unread : Nat
deriving DecidableEq

/-- Models the lib.rs free function `extract_project_name` (lib.rs:413-419)
-- unlike its state.rs namesake it does not truncate. -/
def extract_project_name (cwd : String) : String := (fileName cwd).getD cwd

/-- Models `resolve_session_name` (lib.rs:421-424).  Modelled from the spec:
in this source snapshot lib.rs passes only the session id, while
`SessionNameManager::get_or_create_name` (state.rs) and the spec take
`(session_id, cwd)` ("resolve display name via SessionNamer from
(session_id, cwd)"); the call is modelled with the event's cwd argument. -/
def resolve_session_name (st : NameState) (session_id : Option String)
    (cwd : String) : Option (Option String × NameState) :=
  match session_id with
  | none => some (none, st)
  | some id =>
    (SessionNameManager.get_or_create_name st id cwd).map fun p => (some p.1, p.2)

/-- Models `show_simple_notification` (lib.rs:599-604): one notify call. -/
def show_simple_notification (settings : NotificationSettings)
    (window_visible : Bool) (st : AppModel) (title body : String) :
    List Notification × AppModel :=
  let (_, unread') := notify settings window_visible st.unread
  ([⟨title, body⟩], { st with unread := unread' })

/-- Models `show_stop_notification` (lib.rs:426-446). -/
def show_stop_notification (settings : NotificationSettings)
    (window_visible : Bool) (st : AppModel) (payload : StopEventPayload) :
    Option (List Notification × AppModel) :=
  let project := extract_project_name payload.cwd
  (resolve_session_name st.name_state payload.session_id payload.cwd).map
    fun (session_name, ns') =>
      let title := session_name.getD "Claude Code"
      let body := "✅ タスクが完了しました\n📁 " ++ project
      let (_, unread') := notify settings window_visible st.unread
      ([⟨title, body⟩], { st with name_state := ns', unread := unread' })

/-- Models the `is_ask_user_question` test of
`show_permission_request_notification` (lib.rs:461-467). -/
def is_ask_user_question (parseValue : String → Option Json)
    (content : PermissionRequestContent) : Bool :=
  (content.tool_name == some "AskUserQuestion")
  || (match content.raw with
      | none => false
      | some raw =>
        (((parseValue raw).bind fun v =>
            (v.get "tool_name").bind Json.as_str).map
          (fun s => s == "AskUserQuestion")).getD false)

/-- The two sub-cases a permission-request payload can route to. -/
inductive PermissionRoute where
  | question
  | approval
deriving DecidableEq

/-- The routing decision of `show_permission_request_notification`
(lib.rs:469-475). -/
def permissionRoute (parseValue : String → Option Json)
    (content : PermissionRequestContent) : PermissionRoute :=
  if is_ask_user_question parseValue content then .question else .approval

/-- Models `extract_question_text` (lib.rs:502-533). -/
def extract_question_text (parseValue : String → Option Json)
    (content : PermissionRequestContent) : Option String :=
  let fromInput : Option String :=
    content.tool_input.bind fun input =>
      ((input.get "questions").bind Json.as_array).bind fun questions =>
        questions.head?.bind fun first_question =>
          (first_question.get "question").bind Json.as_str
  match fromInput with
  | some q => some q
  | none =>
    content.raw.bind fun raw =>
      (parseValue raw).bind fun raw_json =>
        (((raw_json.get "tool_input").bind fun ti =>
            ti.get "questions").bind Json.as_array).bind fun questions =>
          questions.head?.bind fun first_question =>
            (first_question.get "question").bind Json.as_str

/-- The `tool_info` computation of `show_tool_permission_notification`
(lib.rs:547-588); `none` is the panic of the byte slice `&raw[..100]` on a
non-boundary of a long non-JSON raw string. -/
def tool_info (parseValue : String → Option Json)
    (content : PermissionRequestContent) : Option String :=
  match content.tool_name with
  | some tool_name =>
    match content.tool_input with
    | some input =>
      match (input.get "command").bind Json.as_str with
      | some command => some (tool_name ++ ": " ++ command)
      | none => some (tool_name ++ " の実行許可が必要です")
    | none => some (tool_name ++ " の実行許可が必要です")
  | none =>
    match content.raw with
    | some raw =>
      match parseValue raw with
      | some raw_json =>
        let tool := ((raw_json.get "tool_name").orElse fun _ =>
            raw_json.get "tool").bind Json.as_str
        let command := (((raw_json.get "tool_input").orElse fun _ =>
            raw_json.get "input").bind fun v => v.get "command").bind Json.as_str
        match tool, command with
        | some t, some c => some (t ++ ": " ++ c)
        | some t, none => some (t ++ " の実行許可が必要です")
        | none, some c => some ("コマンド: " ++ c)
        | none, none => some "ツールの実行許可が必要です"
      | none =>
        if strLen raw > 100 then
          (takeBytes raw.data 100).map (fun pre => String.mk pre ++ "...")
        else some raw
    | none => some "ツールの実行許可が必要です"

/-- Models `show_permission_request_notification` (lib.rs:448-476) together
with its two sub-cases `show_ask_user_question_notification`
(lib.rs:478-500) and `show_tool_permission_notification` (lib.rs:535-597). -/
def show_permission_request_notification (parseValue : String → Option Json)
    (settings : NotificationSettings) (window_visible : Bool) (st : AppModel)
    (payload : PermissionRequestPayload) :
    Option (List Notification × AppModel) :=
  let project := extract_project_name payload.cwd
  (resolve_session_name st.name_state payload.session_id payload.cwd).bind
    fun (session_name, ns') =>
      match permissionRoute parseValue payload.content with
      | .question =>
        let title := session_name.getD "Claude Code"
        let question_text :=
          (extract_question_text parseValue payload.content).getD "質問が来ています"
        let body := "❓ 質問があります\n" ++ question_text ++ "\n📁 " ++ project
        let (_, unread') := notify settings window_visible st.unread
        some ([⟨title, body⟩], { st with name_state := ns', unread := unread' })
      | .approval =>
        (tool_info parseValue payload.content).map fun info =>
          let title := session_name.getD "Claude Code"
          let body := "⚠️ 承認が必要です\n" ++ info ++ "\n📁 " ++ project
          let (_, unread') := notify settings window_visible st.unread
          ([⟨title, body⟩], { st with name_state := ns', unread := unread' })

/-- Models `show_notification_event` (lib.rs:606-653). -/
def show_notification_event (parseValue : String → Option Json)
    (settings : NotificationSettings) (window_visible : Bool) (st : AppModel)
    (payload : NotificationEventPayload) :
    Option (List Notification × AppModel) :=
  let project := extract_project_name payload.cwd
  (resolve_session_name st.name_state payload.session_id payload.cwd).bind
    fun (session_name, ns') =>
      let title := session_name.getD "Claude Code"
      let messageOpt : Option String :=
        match payload.content.message with
        | some msg => some msg
        | none =>
          match payload.content.title with
          | some content_title => some content_title
          | none =>
            match payload.content.raw with
            | some raw =>
              match parseValue raw with
              | some raw_json =>
                some (((((raw_json.get "message").orElse fun _ =>
                    raw_json.get "title").orElse fun _ =>
                    raw_json.get "question").bind Json.as_str).getD
                  "入力を待っています")
              | none =>
                if strLen raw > 100 then
                  (takeBytes raw.data 100).map (fun pre => String.mk pre ++ "...")
                else some raw
            | none => some "入力を待っています"
      messageOpt.map fun message =>
        let body := "💬 入力が必要です\n" ++ message ++ "\n📁 " ++ project
        let (_, unread') := notify settings window_visible st.unread
        ([⟨title, body⟩], { st with name_state := ns', unread := unread' })

/-- Models `handle_mqtt_message` (lib.rs:318-411): topic dispatch in source
order (exact literals first, then the status-topic head test, then the
literal status topic, then the catch-all).  The result is the list of
notify calls made and the updated shared state; `none` is a panic
propagated from a helper.  Arms that only log produce `([], st)`. -/
def handle_mqtt_message (env : Serde) (settings : NotificationSettings)
    (window_visible : Bool) (now : Nat) (st : AppModel)
    (topic : String) (payload : List Nat) :
    Option (List Notification × AppModel) :=
  if topic = EVENTS_STOP then
    match env.payload_str payload with
    | none => some ([], st)
    | some payload_str =>
      match env.decodeStop payload_str with
      | some p => show_stop_notification settings window_visible st p
      | none =>
        some (show_simple_notification settings window_visible st
          "✅ タスク完了" payload_str)
  else if topic = EVENTS_PERMISSION_REQUEST then
    match env.payload_str payload with
    | none => some ([], st)
    | some payload_str =>
      match env.decodePermission payload_str with
      | some p =>
        show_permission_request_notification env.parseValue settings
          window_visible st p
      | none =>
        some (show_simple_notification settings window_visible st
          "⚠️ 承認依頼" payload_str)
  else if topic = EVENTS_NOTIFICATION then
    match env.payload_str payload with
    | none => some ([], st)
    | some payload_str =>
      match env.decodeNotification payload_str with
      | some p =>
        show_notification_event env.parseValue settings window_visible st p
      | none =>
        some (show_simple_notification settings window_visible st
          "💬 通知" payload_str)
  else if topic = TASK_COMPLETE then
    match env.payload_str payload with
    | none => some ([], st)
    | some payload_str =>
      some (show_simple_notification settings window_visible st
        "✅ タスク完了" payload_str)
  else if topic = ERROR then
    match env.payload_str payload with
    | none => some ([], st)
    | some payload_str =>
      some (show_simple_notification settings window_visible st
        "❌ エラー" payload_str)
  else if strStartsWith topic STATUS_TOPIC_HEAD then
    match env.payload_str payload with
    | none => some ([], st)
    | some payload_str =>
      match env.decodeStatus payload_str with
      | some p =>
        let sessions := update_session now p st.sessions
        let sessions := (cleanup_expired now sessions).1
        some ([], { st with sessions := sessions })
      | none => some ([], st)
  else if topic = STATUS then
    some ([], st)
  else
    some ([], st)

/-! ## Lemmas about the name maps -/

theorem lookupName_append_some (sid : String) (l l2 : List (String × String))
    (n : String) (h : lookupName sid l = some n) :
    lookupName sid (l ++ l2) = some n := by
  induction l with
  | nil => simp [lookupName] at h
  | cons p rest ih =>
    obtain ⟨k, v⟩ := p
    simp only [lookupName, List.cons_append] at h ⊢
    by_cases hk : k = sid
    · rw [if_pos hk] at h ⊢; exact h
    · rw [if_neg hk] at h ⊢; exact ih h

theorem lookupName_append_fresh (sid : String) (l : List (String × String))
    (v : String) (h : lookupName sid l = none) :
    lookupName sid (l ++ [(sid, v)]) = some v := by
  induction l with
  | nil => simp [lookupName]
  | cons p rest ih =>
    obtain ⟨k, w⟩ := p
    simp only [lookupName, List.cons_append] at h ⊢
    by_cases hk : k = sid
    · rw [if_pos hk] at h; simp at h
    · rw [if_neg hk] at h ⊢; exact ih h

theorem lookupName_append_none (sid k : String) (l : List (String × String))
    (v : String) (h : lookupName sid l = none) (hk : k ≠ sid) :
    lookupName sid (l ++ [(k, v)]) = none := by
  induction l with
  | nil => simp [lookupName, hk]
  | cons p rest ih =>
    obtain ⟨k', w⟩ := p
    simp only [lookupName, List.cons_append] at h ⊢
    by_cases hk' : k' = sid
    · rw [if_pos hk'] at h; simp at h
    · rw [if_neg hk'] at h ⊢; exact ih h

theorem lookupName_removeName (sid k : String) (l : List (String × String))
    (hk : k ≠ sid) : lookupName sid (removeName k l) = lookupName sid l := by
  induction l with
  | nil => simp [removeName]
  | cons p rest ih =>
    obtain ⟨k', v⟩ := p
    simp only [removeName]
    by_cases hk' : k' = k
    · rw [if_pos hk']
      have : k' ≠ sid := hk' ▸ hk
      simp [lookupName, this]
    · rw [if_neg hk']
      simp only [lookupName]
      by_cases hs : k' = sid
      · rw [if_pos hs, if_pos hs]
      · rw [if_neg hs, if_neg hs]; exact ih

theorem lookupBucket_setBucket (proj : String) (v : List String)
    (l : List (String × List String)) :
    lookupBucket proj (setBucket proj v l) = some v := by
  induction l with
  | nil => simp [setBucket, lookupBucket]
  | cons p rest ih =>
    obtain ⟨k, w⟩ := p
    simp only [setBucket]
    by_cases hk : k = proj
    · rw [if_pos hk]; simp [lookupBucket]
    · rw [if_neg hk]; simp only [lookupBucket]; rw [if_neg hk]; exact ih

/-- Full case analysis of a successful `get_or_create_name` call: either the
session id already had a name and the state is untouched, or the id was
fresh, the project label derived without panic, the name carries the
ordinal `bucket length + 1`, and both maps are extended accordingly. -/
theorem get_or_create_name_cases (st : NameState) (sid cwd n : String)
    (st' : NameState)
    (h : SessionNameManager.get_or_create_name st sid cwd = some (n, st')) :
    (lookupName sid st.names = some n ∧ st' = st) ∨
    (lookupName sid st.names = none ∧
      ∃ pn, SessionNameManager.extract_project_name cwd = some pn ∧
        n = pn ++ " (" ++ toString
          (((lookupBucket pn st.project_sessions).getD []).length + 1) ++ ")" ∧
        st' = ⟨st.names ++ [(sid, n)],
               setBucket pn ((lookupBucket pn st.project_sessions).getD [] ++ [sid])
                 st.project_sessions⟩) := by
  unfold SessionNameManager.get_or_create_name at h
  cases h1 : lookupName sid st.names with
  | some name =>
    rw [h1] at h
    simp only [Option.some.injEq, Prod.mk.injEq] at h
    exact .inl ⟨congrArg some h.1, h.2.symm⟩
  | none =>
    rw [h1] at h
    cases hx : SessionNameManager.extract_project_name cwd with
    | none => rw [hx] at h; simp at h
    | some pn =>
      rw [hx] at h
      simp only [Option.some_bind] at h
      simp only [Option.some.injEq, Prod.mk.injEq] at h
      obtain ⟨hn, hst⟩ := h
      refine .inr ⟨rfl, pn, rfl, by rw [← hn]; simp, ?_⟩
      rw [← hst, ← hn]

theorem get_or_create_name_preserves (st st' : NameState) (sid sid' cwd m n : String)
    (h : SessionNameManager.get_or_create_name st sid' cwd = some (m, st'))
    (hl : lookupName sid st.names = some n) :
    lookupName sid st'.names = some n := by
  rcases get_or_create_name_cases st sid' cwd m st' h with
    ⟨_, rfl⟩ | ⟨hfresh, pn, hx, hname, hst⟩
  · exact hl
  · subst hst
    exact lookupName_append_some sid st.names _ n hl

theorem remove_session_preserves (st : NameState) (sid sid' n : String)
    (hne : sid' ≠ sid) (hl : lookupName sid st.names = some n) :
    lookupName sid (SessionNameManager.remove_session st sid').names = some n := by
  unfold SessionNameManager.remove_session
  cases h1 : lookupName sid' st.names with
  | none => exact hl
  | some _ =>
    show lookupName sid (removeName sid' st.names) = some n
    rw [lookupName_removeName sid sid' st.names hne]
    exact hl

theorem get_or_create_name_of_lookup (st : NameState) (sid cwd n : String)
    (hl : lookupName sid st.names = some n) :
    SessionNameManager.get_or_create_name st sid cwd = some (n, st) := by
  unfold SessionNameManager.get_or_create_name
  rw [hl]

theorem get_or_create_name_lookup (st st' : NameState) (sid cwd n : String)
    (h : SessionNameManager.get_or_create_name st sid cwd = some (n, st')) :
    lookupName sid st'.names = some n := by
  rcases get_or_create_name_cases st sid cwd n st' h with
    ⟨hl, rfl⟩ | ⟨hfresh, pn, hx, hname, hst⟩
  · exact hl
  · subst hst
    exact lookupName_append_fresh sid st.names n hfresh

theorem runNameOps_preserves (sid n : String) :
    ∀ (ops : List NameOp) (st stN : NameState),
    NameOp.remove sid ∉ ops →
    lookupName sid st.names = some n →
    runNameOps st ops = some stN →
    lookupName sid stN.names = some n := by
  intro ops
  induction ops with
  | nil =>
    intro st stN _ hl hrun
    simp only [runNameOps, Option.some.injEq] at hrun
    rw [← hrun]; exact hl
  | cons op rest ih =>
    intro st stN hmem hl hrun
    simp only [runNameOps] at hrun
    cases hap : applyNameOp st op with
    | none => rw [hap] at hrun; simp at hrun
    | some st1 =>
      rw [hap] at hrun
      simp only [Option.some_bind] at hrun
      have hmem' : NameOp.remove sid ∉ rest := fun hc => hmem (List.mem_cons_of_mem _ hc)
      refine ih st1 stN hmem' ?_ hrun
      cases op with
      | create sid' cwd' =>
        simp only [applyNameOp] at hap
        cases hg : SessionNameManager.get_or_create_name st sid' cwd' with
        | none => rw [hg] at hap; simp at hap
        | some p =>
          rw [hg] at hap
          simp only [Option.map_some'] at hap
          obtain ⟨m, st2⟩ := p
          simp only [Option.some.injEq] at hap
          rw [← hap]
          exact get_or_create_name_preserves st st2 sid sid' cwd' m n hg hl
      | remove sid' =>
        simp only [applyNameOp, Option.some.injEq] at hap
        have hne : sid' ≠ sid := fun he => hmem (by rw [he]; exact List.mem_cons_self _ _)
        rw [← hap]
        exact remove_session_preserves st sid sid' n hne hl

/-- C2: `get_or_create_name` is idempotent and stable.  Once a first call
`get_or_create_name(session_id, cwd)` has returned a name, every later
call with the same session id -- with the same or any other cwd argument,
and across any interleaved sequence of create/remove calls that does not
remove this session id -- returns exactly that same string (and leaves
the state untouched). -/
theorem c2_name_idempotent_until_removed
    (st st₀ stN : NameState) (sid cwd cwd' n : String) (ops : List NameOp)
    (hfirst : SessionNameManager.get_or_create_name st sid cwd = some (n, st₀))
    (hops : runNameOps st₀ ops = some stN)
    (hnorem : NameOp.remove sid ∉ ops) :
    SessionNameManager.get_or_create_name stN sid cwd' = some (n, stN) := by
  have h0 := get_or_create_name_lookup st st₀ sid cwd n hfirst
  have hN := runNameOps_preserves sid n ops st₀ stN hnorem h0 hops
  exact get_or_create_name_of_lookup stN sid cwd' n hN

theorem c2_witness :
    SessionNameManager.get_or_create_name
      ⟨[("s1", "app (1)")], [("app", ["s1"])]⟩ "s1" "/elsewhere" =
      some ("app (1)", ⟨[("s1", "app (1)")], [("app", ["s1"])]⟩) :=
  c2_name_idempotent_until_removed NameState.empty
    ⟨[("s1", "app (1)")], [("app", ["s1"])]⟩
    ⟨[("s1", "app (1)")], [("app", ["s1"])]⟩
    "s1" "/home/u/app" "/elsewhere" "app (1)"
    [NameOp.create "s2" "/home/u/app", NameOp.remove "s2"]
    (by decide) (by decide) (by decide)

theorem get_or_create_name_fresh (st : NameState) (sid cwd pn : String)
    (hl : lookupName sid st.names = none)
    (hx : SessionNameManager.extract_project_name cwd = some pn) :
    SessionNameManager.get_or_create_name st sid cwd =
      some (pn ++ " (" ++ toString
          (((lookupBucket pn st.project_sessions).getD []).length + 1) ++ ")",
        ⟨st.names ++ [(sid, pn ++ " (" ++ toString
            (((lookupBucket pn st.project_sessions).getD []).length + 1) ++ ")")],
         setBucket pn ((lookupBucket pn st.project_sessions).getD [] ++ [sid])
           st.project_sessions⟩) := by
  unfold SessionNameManager.get_or_create_name
  rw [hl, hx]
  simp [List.length_append]

theorem rangeNames_succ (label : String) (m len : Nat) :
    (List.range (len + 1)).map (fun k => label ++ " (" ++ toString (m + k + 1) ++ ")") =
      (label ++ " (" ++ toString (m + 1) ++ ")") ::
        (List.range len).map (fun k => label ++ " (" ++ toString (m + 1 + k + 1) ++ ")") := by
  rw [List.range_succ_eq_map, List.map_cons, List.map_map]
  refine congrArg₂ List.cons (by norm_num) ?_
  apply List.map_congr_left
  intro k _
  simp only [Function.comp_apply]
  have : m + (k + 1) + 1 = m + 1 + k + 1 := by omega
  rw [Nat.succ_eq_add_one, this]

theorem c3_aux (label : String) :
    ∀ (calls : List (String × String)) (st : NameState),
    (∀ p ∈ calls, SessionNameManager.extract_project_name p.2 = some label) →
    (∀ p ∈ calls, lookupName p.1 st.names = none) →
    (calls.map Prod.fst).Nodup →
    runNames st calls =
      some ((List.range calls.length).map fun k =>
        label ++ " (" ++ toString
          (((lookupBucket label st.project_sessions).getD []).length + k + 1) ++ ")") := by
  intro calls
  induction calls with
  | nil => intro st _ _ _; simp [runNames]
  | cons p rest ih =>
    obtain ⟨sid, cwd⟩ := p
    intro st hlabel hfresh hnodup
    have hl : lookupName sid st.names = none :=
      hfresh (sid, cwd) (List.mem_cons_self _ _)
    have hx : SessionNameManager.extract_project_name cwd = some label :=
      hlabel (sid, cwd) (List.mem_cons_self _ _)
    simp only [List.map_cons, List.nodup_cons] at hnodup
    obtain ⟨hsid, hnodup'⟩ := hnodup
    simp only [runNames]
    rw [get_or_create_name_fresh st sid cwd label hl hx]
    simp only [Option.some_bind]
    set b := (lookupBucket label st.project_sessions).getD [] with hb
    set st' : NameState :=
      ⟨st.names ++ [(sid, label ++ " (" ++ toString (b.length + 1) ++ ")")],
       setBucket label (b ++ [sid]) st.project_sessions⟩ with hst'
    have hlabel' : ∀ q ∈ rest, SessionNameManager.extract_project_name q.2 = some label :=
      fun q hq => hlabel q (List.mem_cons_of_mem _ hq)
    have hfresh' : ∀ q ∈ rest, lookupName q.1 st'.names = none := by
      intro q hq
      have hqne : sid ≠ q.1 := by
        intro he
        exact hsid (he ▸ List.mem_map_of_mem Prod.fst hq)
      exact lookupName_append_none q.1 sid st.names _
        (hfresh q (List.mem_cons_of_mem _ hq)) hqne
    have hbucket' : (lookupBucket label st'.project_sessions).getD [] = b ++ [sid] := by
      show (lookupBucket label (setBucket label (b ++ [sid]) st.project_sessions)).getD [] = b ++ [sid]
      rw [lookupBucket_setBucket]
      rfl
    have := ih st' hlabel' hfresh' hnodup'
    rw [hbucket'] at this
    rw [this]
    simp only [Option.map_some', Option.some.injEq, List.length_cons]
    rw [rangeNames_succ label b.length rest.length]
    simp [List.length_append]

/-- C3: for every sequence of first-time `get_or_create_name` calls for
distinct session ids whose cwds all derive the identical truncated
project label (no intervening `remove_session`, empty initial bucket for
that label), the assigned names carry ordinals exactly `1..N` in arrival
order: the k-th session id gets `"<label> (k)"`. -/
theorem c3_sequential_ordinals (st : NameState) (label : String)
    (calls : List (String × String))
    (hlabel : ∀ p ∈ calls, SessionNameManager.extract_project_name p.2 = some label)
    (hfresh : ∀ p ∈ calls, lookupName p.1 st.names = none)
    (hnodup : (calls.map Prod.fst).Nodup)
    (hbucket : (lookupBucket label st.project_sessions).getD [] = []) :
    runNames st calls =
      some ((List.range calls.length).map fun k =>
        label ++ " (" ++ toString (k + 1) ++ ")") := by
  have h := c3_aux label calls st hlabel hfresh hnodup
  rw [hbucket] at h
  simpa using h

theorem c3_witness :
    runNames NameState.empty [("s1", "/home/u/app"), ("s2", "/home/u/app")] =
      some ["app (1)", "app (2)"] := by
  have h := c3_sequential_ordinals NameState.empty "app"
    [("s1", "/home/u/app"), ("s2", "/home/u/app")]
    (by decide) (by decide) (by decide) (by decide)
  rw [h]
  decide

theorem byteLen_append (a b : List Char) :
    byteLen (a ++ b) = byteLen a + byteLen b := by
  simp [byteLen]

/-- The project label as the claim's sentence reads it: truncation decided
and performed by CHARACTER count ("longer than 30 characters ...
truncated to 27 characters") -- to be compared with
`SessionNameManager.extract_project_name`, which counts and slices
bytes. -/
def labelSpec (cwd : String) : String :=
  let pn := SessionNameManager.rawProjectName cwd
  if pn.data.length > 30 then String.mk (pn.data.take 27) ++ "..." else pn

/-- A cwd whose final component is 11 three-byte characters: 11
characters but 33 bytes. -/
def c4Cwd : String := "/home/u/" ++ String.mk (List.replicate 11 'あ')

/-- C4 counterexample: the claim reads the truncation rule in characters,
but `extract_project_name` counts bytes.  For a cwd whose final component
is 11 three-byte characters (11 characters, 33 bytes) the claim's reading
leaves the label untouched (11 is not longer than 30 characters), yet the
code truncates (33 bytes > 30) and returns a different string. -/
theorem c4_counterexample :
    (SessionNameManager.rawProjectName c4Cwd).data.length = 11 ∧
    labelSpec c4Cwd = SessionNameManager.rawProjectName c4Cwd ∧
    SessionNameManager.extract_project_name c4Cwd ≠ some (labelSpec c4Cwd) := by
  decide

theorem append_ordinal_one (x : String) :
    x ++ " (" ++ toString (1 : Nat) ++ ")" = x ++ " (1)" := by
  have h1 : toString (1 : Nat) = "1" := rfl
  rw [h1]
  apply String.ext
  simp [String.data_append]

/-- C4 (amended): the project label used for naming is the final path
component of cwd (or the whole cwd string if there is none); if that
component's UTF-8 BYTE length exceeds 30, it is truncated to its first
27 BYTES followed by `"..."` (a byte slice that panics when byte 27 is
not a character boundary, see C1), giving a 30-byte label; a first
session's display name is then the label followed by `" (1)"`. -/
theorem c4_amended (cwd : String) :
    (strLen (SessionNameManager.rawProjectName cwd) ≤ 30 →
      SessionNameManager.extract_project_name cwd =
        some (SessionNameManager.rawProjectName cwd)) ∧
    (∀ pre, strLen (SessionNameManager.rawProjectName cwd) > 30 →
      takeBytes (SessionNameManager.rawProjectName cwd).data 27 = some pre →
      SessionNameManager.extract_project_name cwd = some (String.mk pre ++ "...") ∧
      strLen (String.mk pre ++ "...") = 30 ∧
      (SessionNameManager.get_or_create_name NameState.empty "s" cwd).map Prod.fst =
        some ((String.mk pre ++ "...") ++ " (1)")) := by
  constructor
  · intro hle
    unfold SessionNameManager.extract_project_name
    rw [if_neg (by simpa [SessionNameManager.MAX_PROJECT_NAME_LENGTH] using hle)]
  · intro pre hgt hpre
    have hx : SessionNameManager.extract_project_name cwd = some (String.mk pre ++ "...") := by
      unfold SessionNameManager.extract_project_name
      rw [if_pos (by simpa [SessionNameManager.MAX_PROJECT_NAME_LENGTH] using hgt)]
      show (takeBytes (SessionNameManager.rawProjectName cwd).data (30 - 3)).map _ = _
      rw [show (30 : Nat) - 3 = 27 from rfl, hpre]
      rfl
    refine ⟨hx, ?_, ?_⟩
    · have h27 : byteLen pre = 27 :=
        takeBytes_byteLen (SessionNameManager.rawProjectName cwd).data 27 pre hpre
      show byteLen (String.mk pre ++ "...").data = 30
      rw [String.data_append]
      rw [byteLen_append, h27]
      rfl
    · rw [get_or_create_name_fresh NameState.empty "s" cwd (String.mk pre ++ "...") rfl hx]
      simp only [Option.map_some']
      rw [show ((lookupBucket (String.mk pre ++ "...")
        (NameState.empty).project_sessions).getD []).length + 1 = 1 from rfl]
      rw [append_ordinal_one]

/-- A cwd whose final component is 50 ASCII characters. -/
def c4Cwd50 : String := "/home/u/" ++ String.mk (List.replicate 50 'a')

theorem c4_witness :
    strLen (SessionNameManager.rawProjectName c4Cwd50) > 30 ∧
    SessionNameManager.extract_project_name c4Cwd50 =
      some (String.mk (List.replicate 27 'a') ++ "...") ∧
    strLen (String.mk (List.replicate 27 'a') ++ "...") = 30 ∧
    (SessionNameManager.get_or_create_name NameState.empty "s" c4Cwd50).map Prod.fst =
      some ((String.mk (List.replicate 27 'a') ++ "...") ++ " (1)") := by
  have h := (c4_amended c4Cwd50).2 (List.replicate 27 'a') (by decide) (by decide)
  exact ⟨by decide, h.1, h.2.1, h.2.2⟩

/-- A cwd whose final component is 16 two-byte characters (32 bytes,
character boundaries only at even byte offsets, so byte 27 is not a
boundary). -/
def c1Cwd : String := "/home/u/" ++ String.mk (List.replicate 16 'é')

/-- A non-JSON raw string of 34 three-byte characters (102 bytes,
character boundaries only at multiples of 3, so byte 100 is not a
boundary). -/
def c1Raw : String := String.mk (List.replicate 34 'あ')

/-- C1: refuted -- message handling CAN panic on well-formed UTF-8 input.
`get_or_create_name` (reached from every stop/permission/notification
event that carries a session id) slices `&project_name[..27]` when the
cwd leaf exceeds 30 bytes, which panics when byte 27 is not a character
boundary (here: a leaf of 16 two-byte characters), and the tool-approval
body builder slices `&raw[..100]` on a non-JSON raw string longer than
100 bytes, which panics likewise (here: 34 three-byte characters,
102 bytes, no boundary at byte 100).  `none` is the model's panic. -/
theorem c1_panics :
    SessionNameManager.get_or_create_name NameState.empty "s1" c1Cwd = none ∧
    tool_info (fun _ => none) ⟨none, none, some c1Raw⟩ = none := by decide

/-- The fallback-notification title `handle_mqtt_message` uses for each
typed event topic when the typed decode fails. -/
def fallbackTitle (topic : String) : String :=
  if topic = EVENTS_STOP then "✅ タスク完了"
  else if topic = EVENTS_PERMISSION_REQUEST then "⚠️ 承認依頼"
  else "💬 通知"

/-- C5: for each of the three structured-JSON event topics (events/stop,
events/permission-request, events/notification), when the payload is
UTF-8 text that fails the strict typed decode, exactly one fallback
notification is emitted whose body equals the raw payload text (title
per topic), the unread counter is incremented once, the rest of the
state is untouched, and no error or panic is propagated. -/
theorem c5_fallback (env : Serde) (settings : NotificationSettings)
    (window_visible : Bool) (now : Nat) (st : AppModel)
    (topic : String) (payload : List Nat) (s : String)
    (hs : env.payload_str payload = some s)
    (hcases :
      (topic = EVENTS_STOP ∧ env.decodeStop s = none) ∨
      (topic = EVENTS_PERMISSION_REQUEST ∧ env.decodePermission s = none) ∨
      (topic = EVENTS_NOTIFICATION ∧ env.decodeNotification s = none)) :
    handle_mqtt_message env settings window_visible now st topic payload =
      some ([⟨fallbackTitle topic, s⟩],
        { st with unread := (st.unread + 1) % 2 ^ 32 }) := by
  rcases hcases with ⟨rfl, hd⟩ | ⟨rfl, hd⟩ | ⟨rfl, hd⟩ <;>
    simp [handle_mqtt_message, hs, hd, fallbackTitle, show_simple_notification,
      notify, increment, EVENTS_STOP, EVENTS_PERMISSION_REQUEST, EVENTS_NOTIFICATION]

/-- A concrete partial UTF-8 decoder used to instantiate the abstract
`payload_str` in witnesses: it accepts exactly the ASCII payloads (on
which it agrees with `std::str::from_utf8`) and rejects everything else
(the byte `0xFF` it is applied to below is genuinely invalid UTF-8). -/
def asciiDecode (bytes : List Nat) : Option String :=
  if bytes.all (fun b => b < 128) then
    some (String.mk (bytes.map Char.ofNat))
  else none

/-- A concrete `Serde` instance for witnesses: ASCII-only UTF-8 decoding
and decoders that fail on every input (the witness payloads below are
plain text that `serde_json` would likewise reject). -/
def witSerde : Serde :=
  { payload_str := asciiDecode,
    decodeStop := fun _ => none,
    decodePermission := fun _ => none,
    decodeNotification := fun _ => none,
    decodeStatus := fun _ => none,
    parseValue := fun _ => none }

theorem c5_witness :
    handle_mqtt_message witSerde NotificationSettings.default true 0
      ⟨NameState.empty, [], 0⟩ EVENTS_STOP [111, 111, 112, 115] =
      some ([⟨"✅ タスク完了", "oops"⟩], ⟨NameState.empty, [], 1⟩) := by
  have h := c5_fallback witSerde NotificationSettings.default true 0
    ⟨NameState.empty, [], 0⟩ EVENTS_STOP [111, 111, 112, 115] "oops"
    (by decide) (Or.inl ⟨rfl, rfl⟩)
  rw [h]
  decide

/-- C6 counterexample: the unread counter is an `AtomicU32`, so
`fetch_add(1)` wraps at `2 ^ 32`; at count `2 ^ 32 - 1` a `notify` call
does not increment the counter by one (it wraps to 0). -/
theorem c6_counterexample :
    (notify NotificationSettings.default true (2 ^ 32 - 1)).2 ≠ 2 ^ 32 - 1 + 1 := by
  decide

/-- C6 (amended): every `notify` call increments the unread counter
modulo `2 ^ 32` -- by exactly one whenever the count stays below
`2 ^ 32` -- independent of which channel-enable settings are on or off
and of window visibility; the underlying increment atomically adds one
and returns the post-increment value, and three notify calls with no
reset leave the count at 3. -/
theorem c6_notify_increments (settings : NotificationSettings)
    (window_visible : Bool) (u : Nat) (h : u + 1 < 2 ^ 32) :
    (notify settings window_visible u).2 = u + 1 ∧
    (notify settings window_visible u).1.count = u + 1 ∧
    (notify settings window_visible
      ((notify settings window_visible
        ((notify settings window_visible 0).2)).2)).2 = 3 := by
  have h4 : u + 1 < 4294967296 := by simpa using h
  refine ⟨?_, ?_, ?_⟩
  · simp [notify, increment, Nat.mod_eq_of_lt h4]
  · simp [notify, increment, Nat.mod_eq_of_lt h4]
  · simp [notify, increment]

theorem c6_witness :
    (notify NotificationSettings.default false 5).2 = 6 ∧
    (notify NotificationSettings.default false 5).1.count = 6 ∧
    (notify NotificationSettings.default false
      ((notify NotificationSettings.default false
        ((notify NotificationSettings.default false 0).2)).2)).2 = 3 :=
  c6_notify_increments NotificationSettings.default false 5 (by decide)

theorem metricsLoop_context (l : List SessionData) :
    (metricsLoop l).total_context =
      (l.filterMap fun sd => sd.status.context_percent).sum ∧
    (metricsLoop l).context_count =
      (l.filterMap fun sd => sd.status.context_percent).length := by
  induction l with
  | nil => simp [metricsLoop]
  | cons sd rest ih =>
    cases h : sd.status.context_percent with
    | none => simp [metricsLoop, h, List.filterMap_cons, ih.1, ih.2]
    | some x =>
      simp [metricsLoop, h, List.filterMap_cons, ih.1, ih.2, add_comm]

/-- C7: `get_metrics` on an empty registry returns all-zero fields; on
any registry, `average_context_percent` is the mean of `context_percent`
over exactly the records where that field is present -- records lacking
it are excluded from the denominator, not counted as zero. -/
theorem c7_metrics (sessions : List (String × SessionData)) :
    get_metrics [] = ⟨0, 0, 0, 0, 0⟩ ∧
    (get_metrics sessions).average_context_percent =
      (let present := (sessions.map (·.2)).filterMap fun sd => sd.status.context_percent
       if present.length > 0 then present.sum / (present.length : ℚ) else 0) := by
  refine ⟨by simp [get_metrics], ?_⟩
  by_cases hnil : sessions.length = 0
  · have he : sessions = [] := List.length_eq_zero.mp hnil
    subst he
    simp [get_metrics]
  · unfold get_metrics
    rw [if_neg hnil]
    have h := metricsLoop_context (sessions.map (·.2))
    simp only [h.1, h.2]

theorem statusHead_ne (topic : String)
    (h : strStartsWith topic STATUS_TOPIC_HEAD = true) :
    topic ≠ EVENTS_STOP ∧ topic ≠ EVENTS_PERMISSION_REQUEST ∧
    topic ≠ EVENTS_NOTIFICATION ∧ topic ≠ TASK_COMPLETE ∧ topic ≠ ERROR := by
  refine ⟨?_, ?_, ?_, ?_, ?_⟩ <;> rintro rfl <;> revert h <;> decide

/-- C8: for every message on a status-prefixed topic whose UTF-8 payload
fails to decode as a `StatusPayload`, no notification is emitted, the
unread count is unchanged and the session registry is left exactly as it
was -- no record is inserted, updated, or swept. -/
theorem c8_status_decode_failure_no_effect (env : Serde)
    (settings : NotificationSettings) (window_visible : Bool) (now : Nat)
    (st : AppModel) (topic : String) (payload : List Nat) (s : String)
    (hpfx : strStartsWith topic STATUS_TOPIC_HEAD = true)
    (hs : env.payload_str payload = some s)
    (hdec : env.decodeStatus s = none) :
    handle_mqtt_message env settings window_visible now st topic payload =
      some ([], st) := by
  obtain ⟨h1, h2, h3, h4, h5⟩ := statusHead_ne topic hpfx
  simp [handle_mqtt_message, h1, h2, h3, h4, h5, hpfx, hs, hdec]

theorem c8_witness :
    handle_mqtt_message witSerde NotificationSettings.default true 0
      ⟨NameState.empty, [], 0⟩ "claude-code/status/abc" [110, 111, 112, 101] =
      some ([], ⟨NameState.empty, [], 0⟩) :=
  c8_status_decode_failure_no_effect witSerde NotificationSettings.default true 0
    ⟨NameState.empty, [], 0⟩ "claude-code/status/abc" [110, 111, 112, 101] "nope"
    (by decide) (by decide) rfl

/-- C9: a permission-request payload is routed to the question-handling
path if and only if its content's `tool_name` equals the sentinel
`"AskUserQuestion"`, or, failing that, the content's `raw` field parses
as JSON whose `tool_name` field is that sentinel; all other payloads
take the tool-approval path (the route is two-valued). -/
theorem c9_question_routing (parseValue : String → Option Json)
    (content : PermissionRequestContent) :
    permissionRoute parseValue content = PermissionRoute.question ↔
      (content.tool_name = some "AskUserQuestion" ∨
       ∃ raw j, content.raw = some raw ∧ parseValue raw = some j ∧
         (j.get "tool_name").bind Json.as_str = some "AskUserQuestion") := by
  have hroute : permissionRoute parseValue content = PermissionRoute.question ↔
      is_ask_user_question parseValue content = true := by
    unfold permissionRoute
    by_cases h : is_ask_user_question parseValue content <;> simp [h]
  rw [hroute]
  unfold is_ask_user_question
  rw [Bool.or_eq_true, beq_iff_eq]
  constructor
  · rintro (h | h)
    · exact .inl h
    · right
      cases hraw : content.raw with
      | none => rw [hraw] at h; simp at h
      | some raw =>
        rw [hraw] at h
        dsimp only at h
        cases hp : parseValue raw with
        | none => rw [hp] at h; simp at h
        | some j =>
          rw [hp] at h
          simp only [Option.some_bind] at h
          cases hg : (j.get "tool_name").bind Json.as_str with
          | none => rw [hg] at h; simp at h
          | some t =>
            rw [hg] at h
            simp only [Option.map_some', Option.getD_some, beq_iff_eq] at h
            exact ⟨raw, j, rfl, hp, by rw [hg, h]⟩
  · rintro (h | ⟨raw, j, hraw, hp, hg⟩)
    · exact .inl h
    · right
      rw [hraw]
      dsimp only
      rw [hp]
      simp only [Option.some_bind]
      rw [hg]
      simp

/-- C10: for every topic, if the payload bytes are not valid UTF-8, the
message is silently dropped: no notification is emitted, the unread
count is unchanged, and the session registry and name assignments are
unchanged. -/
theorem c10_invalid_utf8_dropped (env : Serde) (settings : NotificationSettings)
    (window_visible : Bool) (now : Nat) (st : AppModel) (topic : String)
    (payload : List Nat) (h : env.payload_str payload = none) :
    handle_mqtt_message env settings window_visible now st topic payload =
      some ([], st) := by
  unfold handle_mqtt_message
  split <;> simp [h]

theorem c10_witness :
    handle_mqtt_message witSerde NotificationSettings.default true 0
      ⟨NameState.empty, [], 0⟩ EVENTS_STOP [255] =
      some ([], ⟨NameState.empty, [], 0⟩) :=
  c10_invalid_utf8_dropped witSerde NotificationSettings.default true 0
    ⟨NameState.empty, [], 0⟩ EVENTS_STOP [255] (by decide)
